import Mathlib

/-! Nomad Pack platform plugin: lifecycle operations

A shallow embedding of `platform/deploy.go` and `platform/destroy.go`.

* External processes (`exec.Command("nomad-pack", args...).Output()`) are answered by an
  oracle `Env.exec` that sees the invocations issued so far and the current argument list.
* Every invocation is appended to `World.calls`, so ordering properties are statements about
  that list.
* A Go run-time panic (index out of range) is the outcome `Outcome.fault`.
* Byte strings returned by the tool are viewed as text (`String`); `strings.Split` with a
  one-character separator and `strings.Contains` are modelled on the character list.
-/

namespace Platform

/-! ## Go string primitives -/

/-- Pieces of `s` between occurrences of `sep`: `strings.Split` on a one-character separator.
The result always has at least one piece. -/
def splitChars (sep : Char) : List Char → List (List Char)
  | [] => [[]]
  | c :: cs =>
    if c = sep then [] :: splitChars sep cs
    else
      match splitChars sep cs with
      | [] => [[c]]
      | p :: ps => (c :: p) :: ps

/-- Go `strings.Split(s, sep)` for a one-character separator. -/
def strSplit (s : String) (sep : Char) : List String :=
  (splitChars sep s.toList).map String.mk

/-- Does `sub` occur as a contiguous run inside the character list? -/
def containsChars (sub : List Char) : List Char → Bool
  | [] => sub.isEmpty
  | c :: cs => sub.isPrefixOf (c :: cs) || containsChars sub cs

/-- Go `strings.Contains(s, substr)`. -/
def strContains (s substr : String) : Bool :=
  containsChars substr.toList s.toList

/-! ## Data model -/

/-- Go `error` value carried by a failed invocation. -/
structure GoError where
  msg : String
deriving DecidableEq, Repr

/-- What `cmd.Output()` hands back: the captured standard output and the error, if any. -/
structure CmdResult where
  output : String
  err : Option GoError
deriving DecidableEq, Repr

/-- Go struct `DeployConfig`. `Variables` lists the entries of the Go map. -/
structure DeployConfig where
  DeploymentName : String
  RegistryName : String
  RegistrySource : String
  RegistryRef : String
  RegistryTarget : String
  Variables : List (String × String)
  VariableFiles : List String
  Pack : String
deriving DecidableEq, Repr

/-- Go struct `NomadPack`: one parsed row of the status table. -/
structure NomadPack where
  PackName : String
  RegistryName : String
  DeploymentName : String
  JobName : String
  Status : String
deriving DecidableEq, Repr

/-- Modelled from the spec: the generated protobuf message `Resource_Pack` (the persisted
resource state) is not among the sources; its only field read or written by the code is
`Name`. -/
structure Resource_Pack where
  Name : String
deriving DecidableEq, Repr

/-- Modelled from the spec: the generated protobuf message `Deployment` is not among the
sources; the code reads `Id`, `Name` and `ResourceState` (nil is `none`, otherwise the
serialized state). -/
structure Deployment where
  Id : String
  Name : String
  ResourceState : Option String
deriving DecidableEq, Repr

/-- SDK enum `StatusReport_Health`. -/
inductive Health where
  | UNKNOWN
  | ALIVE
  | READY
  | DOWN
  | MISSING
  | PARTIAL
deriving DecidableEq, Repr

/-- SDK enum `ResourceCategoryDisplayHint`, the two values used here. -/
inductive DisplayHint where
  | INSTANCE
  | INSTANCE_MANAGER
deriving DecidableEq, Repr

/-- SDK message `StatusReport_Resource`. -/
structure StatusResource where
  Id : String
  Name : String
  CreatedTime : Nat
  CategoryDisplayHint : DisplayHint
  Health : Health
  HealthMessage : String
  StateJson : String
deriving DecidableEq, Repr

/-- SDK message `StatusReport`, the fields the plugin touches. -/
structure StatusReport where
  Resources : List StatusResource
  Health : Health
  HealthMessage : String
deriving DecidableEq, Repr

/-- Styles of `ui.Output`. -/
inductive Style where
  | info
  | error
  | step
deriving DecidableEq, Repr

/-- One message sent to the user-facing sink. -/
structure UIMsg where
  text : String
  style : Style
deriving DecidableEq, Repr

/-- How a call ends: a value, a returned Go error, or a run-time panic. -/
inductive Outcome (α : Type) where
  | ok (a : α)
  | error (e : GoError)
  | fault
deriving DecidableEq, Repr

/-- Order in which a Go `range` visits the entries of a map: some rearrangement of them. -/
structure MapOrder where
  order : List (String × String) → List (String × String)
  perm : ∀ m, (order m).Perm m

/-- Everything outside the plugin. `exec` answers an invocation of `nomad-pack` from the
invocations issued before it and its argument list; `now` is the clock reading;
`marshal` is `json.Marshal` on a `NomadPack` (which cannot fail on a struct of strings);
`loadState` decodes a persisted resource state; `sdkReport` is the resource manager
assembling a report from the resources its status callbacks appended. -/
structure Env where
  exec : List (List String) → List String → CmdResult
  vars : MapOrder
  now : Nat
  marshal : NomadPack → String
  loadState : String → Except GoError Resource_Pack
  sdkReport : List StatusResource → StatusReport

/-- Observable effects so far: invocations of the external tool in order, messages on the
user-facing sink, and log lines. -/
structure World where
  calls : List (List String)
  ui : List UIMsg
  log : List String
deriving DecidableEq, Repr

/-- Record one invocation `exec.Command("nomad-pack", args...)`. -/
def World.call (w : World) (args : List String) : World :=
  { w with calls := w.calls ++ [args] }

/-- Send `ui.Output(text, style)`. -/
def World.uiOutput (w : World) (text : String) (style : Style) : World :=
  { w with ui := w.ui ++ [⟨text, style⟩] }

/-- Write `log.Info(text)` or `log.Error(text)`. -/
def World.logLine (w : World) (text : String) : World :=
  { w with log := w.log ++ [text] }

/-! ## Operations of `platform/deploy.go` and `platform/destroy.go` -/

/-- Go `Platform.addRegistry`: issue `registry add` and hand back the `--ref=` qualifier. -/
def addRegistry (env : Env) (cfg : DeployConfig) (w : World) : World × Except GoError String :=
  let args := ["registry", "add", cfg.RegistryName, cfg.RegistrySource]
  let args := if cfg.RegistryTarget ≠ "" then args ++ ["--target=" ++ cfg.RegistryTarget] else args
  let registryRef := if cfg.RegistryRef ≠ "" then "--ref=" ++ cfg.RegistryRef else ""
  let args := if cfg.RegistryRef ≠ "" then args ++ [registryRef] else args
  let r := env.exec w.calls args
  let w := w.call args
  match r.err with
  | some err =>
    let w := w.uiOutput r.output Style.error
    let w := w.uiOutput ("Error adding pack registry: " ++ err.msg) Style.error
    (w, Except.error err)
  | none => (w, Except.ok registryRef)

/-- Go `Platform.setVarArgs`: append one `--var=` per map entry, in the order the `range`
visits them, then one `--var-file=` per variable file. -/
def setVarArgs (env : Env) (cfg : DeployConfig) (args : List String) : List String :=
  let args := (env.vars.order cfg.Variables).foldl
    (fun acc kv => acc ++ ["--var=" ++ kv.1 ++ "=" ++ kv.2]) args
  cfg.VariableFiles.foldl (fun acc varFile => acc ++ ["--var-file=" ++ varFile]) args

/-- Go `Platform.deployPack` (the `result` argument is never touched). Returns the effects,
the resource state after the call and the outcome. -/
def deployPack (env : Env) (cfg : DeployConfig) (w : World) (state : Resource_Pack) :
    World × Resource_Pack × Outcome Unit :=
  match addRegistry env cfg w with
  | (w, Except.error err) => (w, state, Outcome.error err)
  | (w, Except.ok refArg) =>
    let runArgs := ["run", cfg.Pack, "--name=" ++ cfg.DeploymentName,
      "--registry=" ++ cfg.RegistryName]
    let runArgs := if refArg ≠ "" then runArgs ++ [refArg] else runArgs
    let runArgs := setVarArgs env cfg runArgs
    let r := env.exec w.calls runArgs
    let w := w.call runArgs
    match r.err with
    | some err =>
      let w := w.uiOutput r.output Style.error
      let w := w.uiOutput ("Error running pack: " ++ err.msg) Style.error
      (w, state, Outcome.error err)
    | none =>
      let w := w.uiOutput r.output Style.info
      (w, { state with Name := cfg.Pack }, Outcome.ok ())

/-- Go `Platform.packStatus`. `sr` is the list `sr.Resources`; the returned list is its
value after the call. Indexing past the end of a slice is `Outcome.fault`. -/
def packStatus (env : Env) (cfg : DeployConfig) (w : World) (pack : Resource_Pack)
    (sr : List StatusResource) : World × List StatusResource × Outcome Unit :=
  match addRegistry env cfg w with
  | (w, Except.error err) => (w, sr, Outcome.error err)
  | (w, Except.ok refArg) =>
    let statusArgs := ["status", pack.Name, "--registry=" ++ cfg.RegistryName,
      "--name=" ++ cfg.DeploymentName]
    let statusArgs := if refArg ≠ "" then statusArgs ++ [refArg] else statusArgs
    let r := env.exec w.calls statusArgs
    let w := w.call statusArgs
    match r.err with
    | some err =>
      let w := w.uiOutput ("Error getting pack status: " ++ err.msg) Style.error
      (w, sr, Outcome.error err)
    | none =>
      let w := w.uiOutput r.output Style.info
      let statusLines := strSplit r.output '\n'
      match statusLines[2]? with
      | none => (w, sr, Outcome.fault)
      | some line =>
        let statusFields := strSplit line '|'
        match statusFields[0]?, statusFields[1]?, statusFields[2]?, statusFields[3]?,
          statusFields[4]? with
        | some f0, some f1, some f2, some f3, some f4 =>
          let packStatus : NomadPack :=
            { PackName := f0, RegistryName := f1, DeploymentName := f2, JobName := f3,
              Status := f4 }
          let health : Health × String :=
            if strContains packStatus.Status "running" then (Health.READY, "pack is running")
            else if strContains packStatus.Status "pending" then (Health.DOWN, "pack is pending")
            else (Health.UNKNOWN, "unknown pack status")
          let packResource : StatusResource :=
            { Id := pack.Name, Name := pack.Name, CreatedTime := env.now,
              CategoryDisplayHint := DisplayHint.INSTANCE, Health := health.1,
              HealthMessage := health.2, StateJson := env.marshal packStatus }
          (w, sr ++ [packResource], Outcome.ok ())
        | _, _, _, _, _ => (w, sr, Outcome.fault)

/-- Go `Platform.generation`: the job-name field of the status row as version bytes, or
nil bytes (`none`) when the row has at most three fields. -/
def generation (env : Env) (cfg : DeployConfig) (w : World) : World × Outcome (Option String) :=
  match addRegistry env cfg w with
  | (w, Except.error err) => (w, Outcome.error err)
  | (w, Except.ok refArg) =>
    let statusArgs := ["status", cfg.Pack, "--registry=" ++ cfg.RegistryName,
      "--name=" ++ cfg.DeploymentName]
    let statusArgs := if refArg ≠ "" then statusArgs ++ [refArg] else statusArgs
    let r := env.exec w.calls statusArgs
    let w := w.call statusArgs
    match r.err with
    | some err =>
      let w := w.uiOutput ("Error getting pack status: " ++ err.msg) Style.error
      (w, Outcome.error err)
    | none =>
      let w := w.logLine r.output
      let statusLines := strSplit r.output '\n'
      match statusLines[2]? with
      | none => (w, Outcome.fault)
      | some line =>
        let statusFields := strSplit line '|'
        if statusFields.length > 3 then
          match statusFields[3]? with
          | some job => (w, Outcome.ok (some job))
          | none => (w, Outcome.fault)
        else (w, Outcome.ok none)

/-- Go `Platform.destroyPack` (the `state` argument is never read). -/
def destroyPack (env : Env) (cfg : DeployConfig) (w : World) (_state : Resource_Pack) :
    World × Outcome Unit :=
  match addRegistry env cfg w with
  | (w, Except.error err) => (w, Outcome.error err)
  | (w, Except.ok refArg) =>
    let statusArgs := ["status", cfg.Pack, "--registry=" ++ cfg.RegistryName,
      "--name=" ++ cfg.DeploymentName]
    let statusArgs := if refArg ≠ "" then statusArgs ++ [refArg] else statusArgs
    let r := env.exec w.calls statusArgs
    let w := w.call statusArgs
    match r.err with
    | some err =>
      let w := w.uiOutput ("Error getting pack status: " ++ err.msg) Style.error
      (w, Outcome.error err)
    | none =>
      let w := w.logLine r.output
      let statusLines := strSplit r.output '\n'
      match statusLines[2]? with
      | none => (w, Outcome.fault)
      | some line =>
        let statusFields := strSplit line '|'
        if statusFields.length ≤ 3 then
          let w := w.logLine "no pack to destroy, skipping redundant destroy operation"
          let w := w.uiOutput "No pack to destroy, skipping redundant destroy operation"
            Style.info
          (w, Outcome.ok ())
        else
          let destroyArgs := ["destroy", cfg.Pack, "--name=" ++ cfg.DeploymentName,
            "--registry=" ++ cfg.RegistryName]
          let destroyArgs := if refArg ≠ "" then destroyArgs ++ [refArg] else destroyArgs
          let destroyArgs := setVarArgs env cfg destroyArgs
          let r := env.exec w.calls destroyArgs
          let w := w.call destroyArgs
          match r.err with
          | some err =>
            let w := w.uiOutput r.output Style.error
            let w := w.uiOutput ("Error destroying pack: " ++ err.msg) Style.error
            (w, Outcome.error err)
          | none =>
            let w := w.uiOutput r.output Style.info
            (w, Outcome.ok ())

/-- The state-restoring step of `Platform.status` (the `if deployment.ResourceState == nil`
block): without persisted state the resource state is rebuilt with `Name: deployment.Id`
(`SetState` with a `Resource_Pack` cannot fail), otherwise `LoadState` decodes it. -/
def statusResourceState (env : Env) (deployment : Deployment) : Except GoError Resource_Pack :=
  match deployment.ResourceState with
  | none => Except.ok { Name := deployment.Id }
  | some bytes => env.loadState bytes

/-- The state-restoring step of `Platform.destroy`: without persisted state the resource
state is rebuilt with `Name: deployment.Name`, otherwise `LoadState` decodes it. -/
def destroyResourceState (env : Env) (deployment : Deployment) : Except GoError Resource_Pack :=
  match deployment.ResourceState with
  | none => Except.ok { Name := deployment.Name }
  | some bytes => env.loadState bytes

/-- Go `Platform.status`. The resource manager holds the single resource `nomad_pack`:
its `StatusReport` runs `packStatus` on the held state with an empty response and assembles
the report with `env.sdkReport`, passing on the error its callback returns. -/
def status (env : Env) (cfg : DeployConfig) (w : World) (deployment : Deployment) :
    World × Outcome StatusReport :=
  let w := w.uiOutput "Checking the status of the deployment..." Style.step
  match statusResourceState env deployment with
  | Except.error err => (w, Outcome.error err)
  | Except.ok pack =>
    match packStatus env cfg w pack [] with
    | (w, _, Outcome.fault) => (w, Outcome.fault)
    | (w, _, Outcome.error err) =>
      let w := w.logLine ("error generating status report: " ++ err.msg)
      (w, Outcome.error
        ⟨"rpc error: code = Internal desc = resource manager failed to generate resource statuses: "
          ++ err.msg⟩)
    | (w, resources, Outcome.ok ()) =>
      let report := env.sdkReport resources
      let report := { report with Health := Health.READY }
      (w, Outcome.ok report)

/-- Go `Platform.destroy`. `DestroyAll` of the resource manager runs `destroyPack` on the
held state and passes on what it returns. -/
def destroy (env : Env) (cfg : DeployConfig) (w : World) (deployment : Deployment) :
    World × Outcome Unit :=
  match destroyResourceState env deployment with
  | Except.error err => (w, Outcome.error err)
  | Except.ok state => destroyPack env cfg w state

/-! ## Command lines as the interface description gives them -/

/-- The invocation `registry add <name> <source> [--target=T] [--ref=R]`. -/
def registryAddCmd (cfg : DeployConfig) : List String :=
  ["registry", "add", cfg.RegistryName, cfg.RegistrySource]
    ++ (if cfg.RegistryTarget = "" then [] else ["--target=" ++ cfg.RegistryTarget])
    ++ (if cfg.RegistryRef = "" then [] else ["--ref=" ++ cfg.RegistryRef])

/-- The qualifier `addRegistry` hands back: `--ref=<ref>`, or empty without a ref. -/
def refArgOf (cfg : DeployConfig) : String :=
  if cfg.RegistryRef = "" then "" else "--ref=" ++ cfg.RegistryRef

/-- The invocation `status <pack> --registry=<registry> --name=<deployment> [--ref=R]`. -/
def statusCmd (cfg : DeployConfig) (pack : String) : List String :=
  ["status", pack, "--registry=" ++ cfg.RegistryName, "--name=" ++ cfg.DeploymentName]
    ++ (if cfg.RegistryRef = "" then [] else ["--ref=" ++ cfg.RegistryRef])

/-- The `--var=K=V` arguments in an order `vars`, then the `--var-file=F` arguments. -/
def varArgs (vars : List (String × String)) (files : List String) : List String :=
  vars.map (fun kv => "--var=" ++ kv.1 ++ "=" ++ kv.2) ++ files.map (fun f => "--var-file=" ++ f)

/-- The invocation
`run <pack> --name=<deployment> --registry=<registry> [--ref=R] [--var=K=V ...] [--var-file=F ...]`
with the variables in the order `vars`. -/
def runCmd (cfg : DeployConfig) (vars : List (String × String)) : List String :=
  ["run", cfg.Pack, "--name=" ++ cfg.DeploymentName, "--registry=" ++ cfg.RegistryName]
    ++ (if cfg.RegistryRef = "" then [] else ["--ref=" ++ cfg.RegistryRef])
    ++ varArgs vars cfg.VariableFiles

/-- The health level the classification table assigns to a status text. -/
def healthOfText (s : String) : Health :=
  if "running".toList <:+: s.toList then Health.READY
  else if "pending".toList <:+: s.toList then Health.DOWN
  else Health.UNKNOWN

/-! ## Concrete environments for evaluation -/

/-- A `range` that visits the entries in the order they are listed. -/
def listedOrder : MapOrder :=
  ⟨fun m => m, fun m => List.Perm.refl m⟩

/-- An environment whose tool answers every invocation successfully, printing `out` for
the `status` verb and nothing otherwise. -/
def envPrinting (out : String) : Env :=
  { exec := fun _ args => if args.head? = some "status" then ⟨out, none⟩ else ⟨"", none⟩
    vars := listedOrder
    now := 0
    marshal := fun p => String.intercalate "|"
      [p.PackName, p.RegistryName, p.DeploymentName, p.JobName, p.Status]
    loadState := fun bytes => Except.ok ⟨bytes⟩
    sdkReport := fun rs => ⟨rs, Health.UNKNOWN, ""⟩ }

/-- An environment whose tool fails every invocation of the verb `verb` with the error
`e` and answers every other invocation successfully with empty output. -/
def envFailing (verb : String) (e : GoError) : Env :=
  { envPrinting "" with
    exec := fun _ args => if args.head? = some verb then ⟨"partial", some e⟩ else ⟨"", none⟩ }

/-- The world before any effect. -/
def World.empty : World := ⟨[], [], []⟩

/-- The configuration of the end-to-end scenario. -/
def redisCfg : DeployConfig :=
  { DeploymentName := "d1", RegistryName := "r1", RegistrySource := "github.com/x/y",
    RegistryRef := "", RegistryTarget := "", Variables := [("replicas", "3")],
    VariableFiles := [], Pack := "redis" }

/-- A configuration with both a target and a ref. -/
def pinnedCfg : DeployConfig :=
  { redisCfg with RegistryRef := "v1", RegistryTarget := "redis" }

/-! ## Facts about the string primitives -/

theorem containsChars_iff (sub s : List Char) : containsChars sub s = true ↔ sub <:+: s := by
  induction s with
  | nil =>
    cases sub <;> simp [containsChars]
  | cons c cs ih =>
    simp only [containsChars, Bool.or_eq_true, ih, List.isPrefixOf_iff_prefix,
      List.infix_cons_iff]

theorem strContains_iff (s substr : String) :
    strContains s substr = true ↔ substr.toList <:+: s.toList :=
  containsChars_iff substr.toList s.toList

theorem ref_ne_empty (r : String) : "--ref=" ++ r ≠ "" := by
  intro h
  have hl := congrArg String.length h
  have h6 : "--ref=".length = 6 := by decide
  have h0 : "".length = 0 := by decide
  rw [String.length_append, h6, h0] at hl
  omega

theorem foldl_append_singleton {α β : Type} (f : α → β) (xs : List α) (acc : List β) :
    xs.foldl (fun a x => a ++ [f x]) acc = acc ++ xs.map f := by
  induction xs generalizing acc with
  | nil => simp
  | cons x xs ih => simp [ih]

theorem setVarArgs_eq (env : Env) (cfg : DeployConfig) (args : List String) :
    setVarArgs env cfg args
      = args ++ varArgs (env.vars.order cfg.Variables) cfg.VariableFiles := by
  unfold setVarArgs varArgs
  simp only [foldl_append_singleton (fun kv : String × String => "--var=" ++ kv.1 ++ "=" ++ kv.2),
    foldl_append_singleton (fun f : String => "--var-file=" ++ f), List.append_assoc]

/-! ## The registration step -/

theorem addRegistry_ok (env : Env) (cfg : DeployConfig) (w : World)
    (h : (env.exec w.calls (registryAddCmd cfg)).err = none) :
    addRegistry env cfg w = (w.call (registryAddCmd cfg), Except.ok (refArgOf cfg)) := by
  unfold addRegistry registryAddCmd refArgOf at *
  by_cases ht : cfg.RegistryTarget = "" <;> by_cases hr : cfg.RegistryRef = "" <;>
    simp_all

theorem addRegistry_err (env : Env) (cfg : DeployConfig) (w : World) (e : GoError)
    (h : (env.exec w.calls (registryAddCmd cfg)).err = some e) :
    addRegistry env cfg w =
      (((w.call (registryAddCmd cfg)).uiOutput
          (env.exec w.calls (registryAddCmd cfg)).output Style.error).uiOutput
          ("Error adding pack registry: " ++ e.msg) Style.error, Except.error e) := by
  unfold addRegistry registryAddCmd at *
  by_cases ht : cfg.RegistryTarget = "" <;> by_cases hr : cfg.RegistryRef = "" <;>
    simp_all

theorem refArg_ite (cfg : DeployConfig) (base : List String) :
    (if refArgOf cfg ≠ "" then base ++ [refArgOf cfg] else base)
      = base ++ (if cfg.RegistryRef = "" then [] else ["--ref=" ++ cfg.RegistryRef]) := by
  unfold refArgOf
  by_cases hr : cfg.RegistryRef = ""
  · simp [hr]
  · simp [hr, ref_ne_empty]

/-! ## Status: parsing and classification -/

theorem getElem?_of_four {α : Type} (xs : List α) (x : α) (h : xs[4]? = some x) :
    ∃ a b c d rest, xs = a :: b :: c :: d :: x :: rest := by
  match xs, h with
  | a :: b :: c :: d :: y :: rest, h =>
    simp at h
    exact ⟨a, b, c, d, rest, by rw [h]⟩

/-- What `packStatus` does once the registration and the status probe have succeeded and
the third line of the output has at least five fields. -/
theorem packStatus_parsed (env : Env) (cfg : DeployConfig) (w : World) (pack : Resource_Pack)
    (sr : List StatusResource) (out line f0 f1 f2 f3 f4 : String) (rest : List String)
    (hreg : (env.exec w.calls (registryAddCmd cfg)).err = none)
    (hst : env.exec (w.calls ++ [registryAddCmd cfg]) (statusCmd cfg pack.Name) = ⟨out, none⟩)
    (hline : (strSplit out '\n')[2]? = some line)
    (hf : strSplit line '|' = f0 :: f1 :: f2 :: f3 :: f4 :: rest) :
    packStatus env cfg w pack sr =
      ((((w.call (registryAddCmd cfg)).call (statusCmd cfg pack.Name)).uiOutput out Style.info),
        sr ++ [{ Id := pack.Name, Name := pack.Name, CreatedTime := env.now,
                 CategoryDisplayHint := DisplayHint.INSTANCE,
                 Health := (if strContains f4 "running" then Health.READY
                   else if strContains f4 "pending" then Health.DOWN else Health.UNKNOWN),
                 HealthMessage := (if strContains f4 "running" then "pack is running"
                   else if strContains f4 "pending" then "pack is pending"
                   else "unknown pack status"),
                 StateJson := env.marshal ⟨f0, f1, f2, f3, f4⟩ }],
        Outcome.ok ()) := by
  unfold packStatus
  rw [addRegistry_ok env cfg w hreg]
  simp only [refArg_ite]
  have hc : (w.call (registryAddCmd cfg)).calls = w.calls ++ [registryAddCmd cfg] := rfl
  have hargs : ["status", pack.Name, "--registry=" ++ cfg.RegistryName,
      "--name=" ++ cfg.DeploymentName]
      ++ (if cfg.RegistryRef = "" then [] else ["--ref=" ++ cfg.RegistryRef])
      = statusCmd cfg pack.Name := rfl
  rw [hargs, hc, hst]
  simp only [hline, hf]
  by_cases h1 : strContains f4 "running" = true
  · simp [h1]
  · by_cases h2 : strContains f4 "pending" = true
    · simp [h1, h2]
    · simp [h1, h2]

theorem splitChars_ne_nil (sep : Char) (l : List Char) : splitChars sep l ≠ [] := by
  induction l with
  | nil => simp [splitChars]
  | cons c cs ih =>
    unfold splitChars
    split
    · simp
    · split <;> simp

/-- Joining the pieces with the separator gives the text back: nothing is trimmed. -/
theorem splitChars_join (sep : Char) (l : List Char) :
    List.intercalate [sep] (splitChars sep l) = l := by
  induction l with
  | nil => simp [splitChars, List.intercalate]
  | cons c cs ih =>
    unfold splitChars
    by_cases hc : c = sep
    · subst hc
      have hne := splitChars_ne_nil c cs
      rw [if_pos rfl]
      cases hsp : splitChars c cs with
      | nil => exact absurd hsp hne
      | cons p ps =>
        rw [hsp] at ih
        simp only [List.intercalate, List.intersperse, List.flatten] at ih ⊢
        simpa using ih
    · rw [if_neg hc]
      cases hsp : splitChars sep cs with
      | nil => exact absurd hsp (splitChars_ne_nil sep cs)
      | cons p ps =>
        rw [hsp] at ih
        cases ps with
        | nil =>
          simp only [List.intercalate, List.intersperse, List.flatten] at ih ⊢
          simpa using ih
        | cons q qs =>
          simp only [List.intercalate, List.intersperse, List.flatten] at ih ⊢
          simpa using ih

/-- No piece contains the separator. -/
theorem splitChars_no_sep (sep : Char) (l : List Char) :
    ∀ p ∈ splitChars sep l, sep ∉ p := by
  induction l with
  | nil => simp [splitChars]
  | cons c cs ih =>
    unfold splitChars
    by_cases hc : c = sep
    · rw [if_pos hc]
      intro p hp
      rcases List.mem_cons.1 hp with h | h
      · simp [h]
      · exact ih p h
    · rw [if_neg hc]
      cases hsp : splitChars sep cs with
      | nil => exact absurd hsp (splitChars_ne_nil sep cs)
      | cons q qs =>
        rw [hsp] at ih
        intro p hp
        rcases List.mem_cons.1 hp with h | h
        · subst h
          intro hmem
          rcases List.mem_cons.1 hmem with h1 | h1
          · exact hc h1.symm
          · exact ih q (List.mem_cons_self _ _) h1
        · exact ih p (List.mem_cons_of_mem _ h)

/-- C1: once the registration and the status probe have succeeded and the third output
line has a fifth field `s`, `packStatus` appends one resource whose health is READY when
`s` contains "running", otherwise DOWN when `s` contains "pending", otherwise UNKNOWN. -/
theorem packStatus_health_classification (env : Env) (cfg : DeployConfig) (w : World)
    (pack : Resource_Pack) (sr : List StatusResource) (out line s : String)
    (hreg : (env.exec w.calls (registryAddCmd cfg)).err = none)
    (hst : env.exec (w.calls ++ [registryAddCmd cfg]) (statusCmd cfg pack.Name) = ⟨out, none⟩)
    (hline : (strSplit out '\n')[2]? = some line)
    (hs : (strSplit line '|')[4]? = some s) :
    ∃ res, (packStatus env cfg w pack sr).2 = (sr ++ [res], Outcome.ok ()) ∧
      ("running".toList <:+: s.toList → res.Health = Health.READY) ∧
      (¬ "running".toList <:+: s.toList → "pending".toList <:+: s.toList →
        res.Health = Health.DOWN) ∧
      (¬ "running".toList <:+: s.toList → ¬ "pending".toList <:+: s.toList →
        res.Health = Health.UNKNOWN) := by
  obtain ⟨f0, f1, f2, f3, rest, hf⟩ := getElem?_of_four _ _ hs
  rw [packStatus_parsed env cfg w pack sr out line f0 f1 f2 f3 s rest hreg hst hline hf]
  refine ⟨_, rfl, ?_, ?_, ?_⟩
  · intro h1
    simp [(strContains_iff s "running").2 h1]
  · intro h1 h2
    have n1 : ¬ strContains s "running" = true := fun h => h1 ((strContains_iff _ _).1 h)
    simp [n1, (strContains_iff s "pending").2 h2]
  · intro h1 h2
    have n1 : ¬ strContains s "running" = true := fun h => h1 ((strContains_iff _ _).1 h)
    have n2 : ¬ strContains s "pending" = true := fun h => h2 ((strContains_iff _ _).1 h)
    simp [n1, n2]

/-- C1 at a concrete output: a status text holding both words is READY. -/
theorem packStatus_health_classification_witness :
    ((envPrinting "H1\nSEP\nA|B|C|D|pending, then running\n").exec World.empty.calls
        (registryAddCmd redisCfg)).err = none ∧
    (strSplit "H1\nSEP\nA|B|C|D|pending, then running\n" '\n')[2]?
      = some "A|B|C|D|pending, then running" ∧
    (strSplit "A|B|C|D|pending, then running" '|')[4]? = some "pending, then running" ∧
    "running".toList <:+: "pending, then running".toList ∧
    ∃ res, (packStatus (envPrinting "H1\nSEP\nA|B|C|D|pending, then running\n") redisCfg
        World.empty ⟨"redis"⟩ []).2 = ([] ++ [res], Outcome.ok ()) ∧
      res.Health = Health.READY := by
  have hrun : "running".toList <:+: "pending, then running".toList :=
    (strContains_iff _ _).1 (by decide)
  refine ⟨by decide, by decide, by decide, hrun, ?_⟩
  obtain ⟨res, hres, hready, _, _⟩ := packStatus_health_classification
    (envPrinting "H1\nSEP\nA|B|C|D|pending, then running\n") redisCfg World.empty ⟨"redis"⟩ []
    "H1\nSEP\nA|B|C|D|pending, then running\n" "A|B|C|D|pending, then running"
    "pending, then running" (by decide) (by decide) (by decide) (by decide)
  exact ⟨res, hres, hready hrun⟩

/-- Status texts of the classification table, evaluated: "stopped", the empty text and a
capitalised "Running" are UNKNOWN, "pending" is DOWN, "not running" is READY. -/
theorem packStatus_health_table :
    (packStatus (envPrinting "H1\nSEP\nA|B|C|D|stopped") redisCfg World.empty ⟨"redis"⟩ []).2.1.map
        StatusResource.Health = [Health.UNKNOWN] ∧
    (packStatus (envPrinting "H1\nSEP\nA|B|C|D|") redisCfg World.empty ⟨"redis"⟩ []).2.1.map
        StatusResource.Health = [Health.UNKNOWN] ∧
    (packStatus (envPrinting "H1\nSEP\nA|B|C|D|Running") redisCfg World.empty ⟨"redis"⟩ []).2.1.map
        StatusResource.Health = [Health.UNKNOWN] ∧
    (packStatus (envPrinting "H1\nSEP\nA|B|C|D|pending") redisCfg World.empty ⟨"redis"⟩ []).2.1.map
        StatusResource.Health = [Health.DOWN] ∧
    (packStatus (envPrinting "H1\nSEP\nA|B|C|D|not running") redisCfg World.empty ⟨"redis"⟩ []).2.1.map
        StatusResource.Health = [Health.READY] := by
  refine ⟨by decide, by decide, by decide, by decide, by decide⟩

theorem take_five_of_length {α : Type} (xs : List α) (h : 5 ≤ xs.length) :
    ∃ a b c d e rest, xs = a :: b :: c :: d :: e :: rest := by
  match xs, h with
  | a :: b :: c :: d :: e :: rest, _ => exact ⟨a, b, c, d, e, rest, rfl⟩

/-- C2, as stated, fails: the third line "A|B|C|D" has more than three fields, yet
`packStatus` ends in an index-out-of-range fault and parses no record. -/
theorem packStatus_four_fields_fault :
    (strSplit "H1\nSEP\nA|B|C|D" '\n')[2]? = some "A|B|C|D" ∧
    (strSplit "A|B|C|D" '|').length > 3 ∧
    packStatus (envPrinting "H1\nSEP\nA|B|C|D") redisCfg World.empty ⟨"redis"⟩ []
      = (⟨[["registry", "add", "r1", "github.com/x/y"],
            ["status", "redis", "--registry=r1", "--name=d1"]],
          [⟨"H1\nSEP\nA|B|C|D", Style.info⟩], []⟩, [], Outcome.fault) := by
  refine ⟨by decide, by decide, by decide⟩

/-- C2, amended: when the registration and the status probe succeed, the output has a third
line and that line splits on the bar into at least five fields, `packStatus` appends one
resource whose detail is the encoding of the record holding the first five fields of that
line, in order and untrimmed. -/
theorem packStatus_record_fields (env : Env) (cfg : DeployConfig) (w : World)
    (pack : Resource_Pack) (sr : List StatusResource) (out line : String)
    (hreg : (env.exec w.calls (registryAddCmd cfg)).err = none)
    (hst : env.exec (w.calls ++ [registryAddCmd cfg]) (statusCmd cfg pack.Name) = ⟨out, none⟩)
    (hline : (strSplit out '\n')[2]? = some line)
    (h5 : 5 ≤ (strSplit line '|').length) :
    ∃ (row : NomadPack) (res : StatusResource),
      (packStatus env cfg w pack sr).2 = (sr ++ [res], Outcome.ok ()) ∧
      res.StateJson = env.marshal row ∧
      [row.PackName, row.RegistryName, row.DeploymentName, row.JobName, row.Status]
        = (strSplit line '|').take 5 := by
  obtain ⟨f0, f1, f2, f3, f4, rest, hf⟩ := take_five_of_length _ h5
  rw [packStatus_parsed env cfg w pack sr out line f0 f1 f2 f3 f4 rest hreg hst hline hf]
  exact ⟨⟨f0, f1, f2, f3, f4⟩, _, rfl, rfl, by simp [hf]⟩

/-- C2, amended, on the synthetic output of the specification: the record is
A, B, C, D, E. -/
theorem packStatus_record_fields_witness :
    ((envPrinting "H1\nSEP\nA|B|C|D|E\n").exec World.empty.calls
        (registryAddCmd redisCfg)).err = none ∧
    (strSplit "H1\nSEP\nA|B|C|D|E\n" '\n')[2]? = some "A|B|C|D|E" ∧
    5 ≤ (strSplit "A|B|C|D|E" '|').length ∧
    (strSplit "A|B|C|D|E" '|').take 5 = ["A", "B", "C", "D", "E"] ∧
    ∃ (row : NomadPack) (res : StatusResource),
      (packStatus (envPrinting "H1\nSEP\nA|B|C|D|E\n") redisCfg World.empty ⟨"redis"⟩ []).2
        = ([] ++ [res], Outcome.ok ()) ∧
      res.StateJson = (envPrinting "H1\nSEP\nA|B|C|D|E\n").marshal row ∧
      [row.PackName, row.RegistryName, row.DeploymentName, row.JobName, row.Status]
        = (strSplit "A|B|C|D|E" '|').take 5 :=
  ⟨by decide, by decide, by decide, by decide,
    packStatus_record_fields (envPrinting "H1\nSEP\nA|B|C|D|E\n") redisCfg World.empty
      ⟨"redis"⟩ [] "H1\nSEP\nA|B|C|D|E\n" "A|B|C|D|E" (by decide) (by decide) (by decide)
      (by decide)⟩

/-! ## Destroy -/

theorem registryAddCmd_head (cfg : DeployConfig) :
    (registryAddCmd cfg).head? = some "registry" := rfl

theorem statusCmd_head (cfg : DeployConfig) (pack : String) :
    (statusCmd cfg pack).head? = some "status" := rfl

/-- C3: when the registration and the status probe succeed and the output has a third line,
`destroyPack` returns success after exactly the two invocations `registry add` and `status`
(none with the verb "destroy") if that line splits on the bar into three or fewer fields,
and otherwise issues exactly one further invocation, with the verb "destroy", after the
probe. -/
theorem destroyPack_idempotent (env : Env) (cfg : DeployConfig) (w : World)
    (state : Resource_Pack) (out line : String)
    (hreg : (env.exec w.calls (registryAddCmd cfg)).err = none)
    (hst : env.exec (w.calls ++ [registryAddCmd cfg]) (statusCmd cfg cfg.Pack) = ⟨out, none⟩)
    (hline : (strSplit out '\n')[2]? = some line) :
    ((strSplit line '|').length ≤ 3 →
      (destroyPack env cfg w state).2 = Outcome.ok () ∧
      (destroyPack env cfg w state).1.calls
        = w.calls ++ [registryAddCmd cfg, statusCmd cfg cfg.Pack] ∧
      [registryAddCmd cfg, statusCmd cfg cfg.Pack].filter
        (fun a => a.head? = some "destroy") = []) ∧
    (3 < (strSplit line '|').length →
      ∃ d, (destroyPack env cfg w state).1.calls
          = w.calls ++ [registryAddCmd cfg, statusCmd cfg cfg.Pack, d] ∧
        [registryAddCmd cfg, statusCmd cfg cfg.Pack, d].filter
          (fun a => a.head? = some "destroy") = [d]) := by
  have hc : (w.call (registryAddCmd cfg)).calls = w.calls ++ [registryAddCmd cfg] := rfl
  have hargs : ["status", cfg.Pack, "--registry=" ++ cfg.RegistryName,
      "--name=" ++ cfg.DeploymentName]
      ++ (if cfg.RegistryRef = "" then [] else ["--ref=" ++ cfg.RegistryRef])
      = statusCmd cfg cfg.Pack := rfl
  have hunf : destroyPack env cfg w state =
      if (strSplit line '|').length ≤ 3 then
        (((((w.call (registryAddCmd cfg)).call (statusCmd cfg cfg.Pack)).logLine out).logLine
          "no pack to destroy, skipping redundant destroy operation").uiOutput
          "No pack to destroy, skipping redundant destroy operation" Style.info, Outcome.ok ())
      else
        let w2 := ((w.call (registryAddCmd cfg)).call (statusCmd cfg cfg.Pack)).logLine out
        let destroyArgs := setVarArgs env cfg
          (["destroy", cfg.Pack, "--name=" ++ cfg.DeploymentName,
            "--registry=" ++ cfg.RegistryName]
            ++ (if cfg.RegistryRef = "" then [] else ["--ref=" ++ cfg.RegistryRef]))
        match (env.exec w2.calls destroyArgs).err with
        | some err =>
          (((w2.call destroyArgs).uiOutput (env.exec w2.calls destroyArgs).output
            Style.error).uiOutput ("Error destroying pack: " ++ err.msg) Style.error,
            Outcome.error err)
        | none =>
          ((w2.call destroyArgs).uiOutput (env.exec w2.calls destroyArgs).output Style.info,
            Outcome.ok ()) := by
    unfold destroyPack
    rw [addRegistry_ok env cfg w hreg]
    simp only [refArg_ite]
    rw [hargs, hc, hst]
    simp only [hline]
  rw [hunf]
  constructor
  · intro h3
    rw [if_pos h3]
    refine ⟨rfl, ?_, ?_⟩
    · simp [World.call, World.uiOutput, World.logLine]
    · simp [registryAddCmd_head, statusCmd_head]
  · intro h3
    rw [if_neg (by omega)]
    refine ⟨setVarArgs env cfg
          (["destroy", cfg.Pack, "--name=" ++ cfg.DeploymentName,
            "--registry=" ++ cfg.RegistryName]
            ++ (if cfg.RegistryRef = "" then [] else ["--ref=" ++ cfg.RegistryRef])), ?_, ?_⟩
    · simp only []
      split <;> simp [World.call, World.uiOutput, World.logLine]
    · simp [registryAddCmd_head, statusCmd_head, setVarArgs_eq]

/-- C3 on a second destroy: the status table has no data row, so the probe is the last
invocation and the call succeeds; with a data row the third invocation is the destroy. -/
theorem destroyPack_idempotent_witness :
    ((envPrinting "H1\nSEP\n").exec World.empty.calls (registryAddCmd redisCfg)).err = none ∧
    (strSplit "H1\nSEP\n" '\n')[2]? = some "" ∧
    (strSplit "" '|').length ≤ 3 ∧
    (destroyPack (envPrinting "H1\nSEP\n") redisCfg World.empty ⟨"redis"⟩).2 = Outcome.ok () ∧
    (destroyPack (envPrinting "H1\nSEP\n") redisCfg World.empty ⟨"redis"⟩).1.calls
      = [["registry", "add", "r1", "github.com/x/y"],
         ["status", "redis", "--registry=r1", "--name=d1"]] ∧
    (strSplit "H1\nSEP\nredis|r1|d1|job|running\n" '\n')[2]? = some "redis|r1|d1|job|running" ∧
    3 < (strSplit "redis|r1|d1|job|running" '|').length ∧
    ∃ d, (destroyPack (envPrinting "H1\nSEP\nredis|r1|d1|job|running\n") redisCfg World.empty
        ⟨"redis"⟩).1.calls
        = World.empty.calls ++ [registryAddCmd redisCfg, statusCmd redisCfg redisCfg.Pack, d] ∧
      [registryAddCmd redisCfg, statusCmd redisCfg redisCfg.Pack, d].filter
        (fun a => a.head? = some "destroy") = [d] := by
  have hno := (destroyPack_idempotent (envPrinting "H1\nSEP\n") redisCfg World.empty ⟨"redis"⟩
    "H1\nSEP\n" "" (by decide) (by decide) (by decide)).1 (by decide)
  have hyes := (destroyPack_idempotent (envPrinting "H1\nSEP\nredis|r1|d1|job|running\n")
    redisCfg World.empty ⟨"redis"⟩ "H1\nSEP\nredis|r1|d1|job|running\n"
    "redis|r1|d1|job|running" (by decide) (by decide) (by decide)).2 (by decide)
  exact ⟨by decide, by decide, by decide, hno.1, hno.2.1, by decide, by decide, hyes⟩

/-! ## The registration step comes first -/

theorem deployPack_reg_err (env : Env) (cfg : DeployConfig) (w : World) (state : Resource_Pack)
    (e : GoError) (h : (env.exec w.calls (registryAddCmd cfg)).err = some e) :
    (deployPack env cfg w state).1.calls = w.calls ++ [registryAddCmd cfg] ∧
    (deployPack env cfg w state).2 = (state, Outcome.error e) := by
  unfold deployPack
  rw [addRegistry_err env cfg w e h]
  exact ⟨rfl, rfl⟩

theorem packStatus_reg_err (env : Env) (cfg : DeployConfig) (w : World) (pack : Resource_Pack)
    (sr : List StatusResource) (e : GoError)
    (h : (env.exec w.calls (registryAddCmd cfg)).err = some e) :
    (packStatus env cfg w pack sr).1.calls = w.calls ++ [registryAddCmd cfg] ∧
    (packStatus env cfg w pack sr).2 = (sr, Outcome.error e) := by
  unfold packStatus
  rw [addRegistry_err env cfg w e h]
  exact ⟨rfl, rfl⟩

theorem destroyPack_reg_err (env : Env) (cfg : DeployConfig) (w : World)
    (state : Resource_Pack) (e : GoError)
    (h : (env.exec w.calls (registryAddCmd cfg)).err = some e) :
    (destroyPack env cfg w state).1.calls = w.calls ++ [registryAddCmd cfg] ∧
    (destroyPack env cfg w state).2 = Outcome.error e := by
  unfold destroyPack
  rw [addRegistry_err env cfg w e h]
  exact ⟨rfl, rfl⟩

theorem generation_reg_err (env : Env) (cfg : DeployConfig) (w : World) (e : GoError)
    (h : (env.exec w.calls (registryAddCmd cfg)).err = some e) :
    (generation env cfg w).1.calls = w.calls ++ [registryAddCmd cfg] ∧
    (generation env cfg w).2 = Outcome.error e := by
  unfold generation
  rw [addRegistry_err env cfg w e h]
  exact ⟨rfl, rfl⟩

theorem deployPack_reg_ok (env : Env) (cfg : DeployConfig) (w : World) (state : Resource_Pack)
    (h : (env.exec w.calls (registryAddCmd cfg)).err = none) :
    ∃ rest, (deployPack env cfg w state).1.calls = w.calls ++ registryAddCmd cfg :: rest := by
  unfold deployPack
  rw [addRegistry_ok env cfg w h]
  simp only []
  split <;> simp [World.call, World.uiOutput]

theorem packStatus_reg_ok (env : Env) (cfg : DeployConfig) (w : World) (pack : Resource_Pack)
    (sr : List StatusResource) (h : (env.exec w.calls (registryAddCmd cfg)).err = none) :
    ∃ rest, (packStatus env cfg w pack sr).1.calls = w.calls ++ registryAddCmd cfg :: rest := by
  unfold packStatus
  rw [addRegistry_ok env cfg w h]
  simp only []
  repeat' split
  all_goals simp [World.call, World.uiOutput]

theorem destroyPack_reg_ok (env : Env) (cfg : DeployConfig) (w : World)
    (state : Resource_Pack) (h : (env.exec w.calls (registryAddCmd cfg)).err = none) :
    ∃ rest, (destroyPack env cfg w state).1.calls = w.calls ++ registryAddCmd cfg :: rest := by
  unfold destroyPack
  rw [addRegistry_ok env cfg w h]
  simp only []
  repeat' split
  all_goals simp [World.call, World.uiOutput, World.logLine]

theorem generation_reg_ok (env : Env) (cfg : DeployConfig) (w : World)
    (h : (env.exec w.calls (registryAddCmd cfg)).err = none) :
    ∃ rest, (generation env cfg w).1.calls = w.calls ++ registryAddCmd cfg :: rest := by
  unfold generation
  rw [addRegistry_ok env cfg w h]
  simp only []
  repeat' split
  all_goals simp [World.call, World.uiOutput, World.logLine]

theorem err_cases (o : Option GoError) : o = none ∨ ∃ e, o = some e := by
  cases o with
  | none => exact Or.inl rfl
  | some e => exact Or.inr ⟨e, rfl⟩

/-- C4: in each of Create (`deployPack`), Status (`packStatus`), Destroy (`destroyPack`) and
Generation (`generation`) the first invocation issued is the same `registry add <name> <source>`
followed by `--target=<target>` iff the target is non-empty and `--ref=<ref>` iff the ref is
non-empty; when that invocation fails it is the only invocation issued. -/
theorem registry_add_first (env : Env) (cfg : DeployConfig) (w : World)
    (state pack : Resource_Pack) (sr : List StatusResource) :
    (∃ rest, (deployPack env cfg w state).1.calls = w.calls ++ registryAddCmd cfg :: rest ∧
      ((env.exec w.calls (registryAddCmd cfg)).err ≠ none → rest = [])) ∧
    (∃ rest, (packStatus env cfg w pack sr).1.calls = w.calls ++ registryAddCmd cfg :: rest ∧
      ((env.exec w.calls (registryAddCmd cfg)).err ≠ none → rest = [])) ∧
    (∃ rest, (destroyPack env cfg w state).1.calls = w.calls ++ registryAddCmd cfg :: rest ∧
      ((env.exec w.calls (registryAddCmd cfg)).err ≠ none → rest = [])) ∧
    (∃ rest, (generation env cfg w).1.calls = w.calls ++ registryAddCmd cfg :: rest ∧
      ((env.exec w.calls (registryAddCmd cfg)).err ≠ none → rest = [])) ∧
    registryAddCmd cfg = ["registry", "add", cfg.RegistryName, cfg.RegistrySource]
      ++ (if cfg.RegistryTarget = "" then [] else ["--target=" ++ cfg.RegistryTarget])
      ++ (if cfg.RegistryRef = "" then [] else ["--ref=" ++ cfg.RegistryRef]) := by
  rcases err_cases (env.exec w.calls (registryAddCmd cfg)).err with h | ⟨e, h⟩
  · refine ⟨?_, ?_, ?_, ?_, rfl⟩
    · obtain ⟨rest, hr⟩ := deployPack_reg_ok env cfg w state h
      exact ⟨rest, hr, fun hne => absurd h hne⟩
    · obtain ⟨rest, hr⟩ := packStatus_reg_ok env cfg w pack sr h
      exact ⟨rest, hr, fun hne => absurd h hne⟩
    · obtain ⟨rest, hr⟩ := destroyPack_reg_ok env cfg w state h
      exact ⟨rest, hr, fun hne => absurd h hne⟩
    · obtain ⟨rest, hr⟩ := generation_reg_ok env cfg w h
      exact ⟨rest, hr, fun hne => absurd h hne⟩
  · exact ⟨⟨[], (deployPack_reg_err env cfg w state e h).1, fun _ => rfl⟩,
      ⟨[], (packStatus_reg_err env cfg w pack sr e h).1, fun _ => rfl⟩,
      ⟨[], (destroyPack_reg_err env cfg w state e h).1, fun _ => rfl⟩,
      ⟨[], (generation_reg_err env cfg w e h).1, fun _ => rfl⟩, rfl⟩

/-- C4 with a failing registration: each operation issues the one invocation
`registry add r1 github.com/x/y --target=redis --ref=v1` and nothing else. -/
theorem registry_add_first_witness :
    ((envFailing "registry" ⟨"exit status 1"⟩).exec World.empty.calls
      (registryAddCmd pinnedCfg)).err ≠ none ∧
    (deployPack (envFailing "registry" ⟨"exit status 1"⟩) pinnedCfg World.empty ⟨""⟩).1.calls
      = [["registry", "add", "r1", "github.com/x/y", "--target=redis", "--ref=v1"]] ∧
    (packStatus (envFailing "registry" ⟨"exit status 1"⟩) pinnedCfg World.empty ⟨"redis"⟩ []).1.calls
      = [["registry", "add", "r1", "github.com/x/y", "--target=redis", "--ref=v1"]] ∧
    (destroyPack (envFailing "registry" ⟨"exit status 1"⟩) pinnedCfg World.empty ⟨""⟩).1.calls
      = [["registry", "add", "r1", "github.com/x/y", "--target=redis", "--ref=v1"]] ∧
    (generation (envFailing "registry" ⟨"exit status 1"⟩) pinnedCfg World.empty).1.calls
      = [["registry", "add", "r1", "github.com/x/y", "--target=redis", "--ref=v1"]] := by
  have hfail : ((envFailing "registry" ⟨"exit status 1"⟩).exec World.empty.calls
      (registryAddCmd pinnedCfg)).err ≠ none := by decide
  have hcmd : registryAddCmd pinnedCfg
      = ["registry", "add", "r1", "github.com/x/y", "--target=redis", "--ref=v1"] := by decide
  obtain ⟨⟨r1, h1, e1⟩, ⟨r2, h2, e2⟩, ⟨r3, h3, e3⟩, ⟨r4, h4, e4⟩, _⟩ :=
    registry_add_first (envFailing "registry" ⟨"exit status 1"⟩) pinnedCfg World.empty ⟨""⟩
      ⟨"redis"⟩ []
  rw [e1 hfail, hcmd] at h1
  rw [e2 hfail, hcmd] at h2
  rw [e3 hfail, hcmd] at h3
  rw [e4 hfail, hcmd] at h4
  exact ⟨hfail, h1, h2, h3, h4⟩

/-! ## Create -/

/-- What `deployPack` does once the registration has succeeded. -/
theorem deployPack_after_reg (env : Env) (cfg : DeployConfig) (w : World)
    (state : Resource_Pack) (hreg : (env.exec w.calls (registryAddCmd cfg)).err = none) :
    deployPack env cfg w state =
      match (env.exec (w.calls ++ [registryAddCmd cfg])
          (runCmd cfg (env.vars.order cfg.Variables))).err with
      | some err =>
        ((((w.call (registryAddCmd cfg)).call (runCmd cfg (env.vars.order cfg.Variables))).uiOutput
          (env.exec (w.calls ++ [registryAddCmd cfg])
            (runCmd cfg (env.vars.order cfg.Variables))).output Style.error).uiOutput
          ("Error running pack: " ++ err.msg) Style.error, state, Outcome.error err)
      | none =>
        (((w.call (registryAddCmd cfg)).call (runCmd cfg (env.vars.order cfg.Variables))).uiOutput
          (env.exec (w.calls ++ [registryAddCmd cfg])
            (runCmd cfg (env.vars.order cfg.Variables))).output Style.info,
          { state with Name := cfg.Pack }, Outcome.ok ()) := by
  have hc : (w.call (registryAddCmd cfg)).calls = w.calls ++ [registryAddCmd cfg] := rfl
  have hargs : setVarArgs env cfg (["run", cfg.Pack, "--name=" ++ cfg.DeploymentName,
      "--registry=" ++ cfg.RegistryName]
      ++ (if cfg.RegistryRef = "" then [] else ["--ref=" ++ cfg.RegistryRef]))
      = runCmd cfg (env.vars.order cfg.Variables) := by
    rw [setVarArgs_eq]
    rfl
  unfold deployPack
  rw [addRegistry_ok env cfg w hreg]
  simp only [refArg_ite]
  rw [hargs, hc]

/-- C5: when the registration and the run invocation both succeed, `deployPack` issues
exactly two invocations, `registry add` and then `run <pack> --name=<deployment>
--registry=<registry>`, followed by `--ref=<ref>` iff the ref is non-empty, one `--var=K=V`
per entry of the variables map in some order, and one `--var-file=F` per variable file in
sequence order; afterwards the name in the resource state is the configured pack. -/
theorem deployPack_success (env : Env) (cfg : DeployConfig) (w : World) (state : Resource_Pack)
    (hreg : (env.exec w.calls (registryAddCmd cfg)).err = none)
    (hrun : (env.exec (w.calls ++ [registryAddCmd cfg])
      (runCmd cfg (env.vars.order cfg.Variables))).err = none) :
    ∃ vars : List (String × String), vars.Perm cfg.Variables ∧
      (deployPack env cfg w state).1.calls = w.calls ++ [registryAddCmd cfg,
        ["run", cfg.Pack, "--name=" ++ cfg.DeploymentName, "--registry=" ++ cfg.RegistryName]
          ++ (if cfg.RegistryRef = "" then [] else ["--ref=" ++ cfg.RegistryRef])
          ++ (vars.map (fun kv => "--var=" ++ kv.1 ++ "=" ++ kv.2)
            ++ cfg.VariableFiles.map (fun f => "--var-file=" ++ f))] ∧
      (deployPack env cfg w state).2.1.Name = cfg.Pack ∧
      (deployPack env cfg w state).2.2 = Outcome.ok () := by
  refine ⟨env.vars.order cfg.Variables, env.vars.perm cfg.Variables, ?_⟩
  rw [deployPack_after_reg env cfg w state hreg, hrun]
  refine ⟨?_, rfl, rfl⟩
  simp [World.call, World.uiOutput, runCmd, varArgs]

/-- C5 on the end-to-end scenario: `registry add r1 github.com/x/y`, then
`run redis --name=d1 --registry=r1 --var=replicas=3`, and the state names "redis". -/
theorem deployPack_success_witness :
    ((envPrinting "ok").exec World.empty.calls (registryAddCmd redisCfg)).err = none ∧
    ((envPrinting "ok").exec (World.empty.calls ++ [registryAddCmd redisCfg])
      (runCmd redisCfg ((envPrinting "ok").vars.order redisCfg.Variables))).err = none ∧
    (deployPack (envPrinting "ok") redisCfg World.empty ⟨""⟩).1.calls
      = [["registry", "add", "r1", "github.com/x/y"],
         ["run", "redis", "--name=d1", "--registry=r1", "--var=replicas=3"]] ∧
    (deployPack (envPrinting "ok") redisCfg World.empty ⟨""⟩).2.1.Name = "redis" ∧
    (deployPack (envPrinting "ok") redisCfg World.empty ⟨""⟩).2.2 = Outcome.ok () := by
  obtain ⟨vars, _, _, hname, hok⟩ :=
    deployPack_success (envPrinting "ok") redisCfg World.empty ⟨""⟩ (by decide) (by decide)
  exact ⟨by decide, by decide, by decide, hname, hok⟩

/-- C10: if the registration fails, or it succeeds and the run invocation fails, `deployPack`
returns the very error of the failed invocation, has issued nothing after it (one
invocation in the first case, two in the second, none repeated), and hands back the
resource state it was given. -/
theorem deployPack_failure (env : Env) (cfg : DeployConfig) (w : World) (state : Resource_Pack)
    (e : GoError) :
    ((env.exec w.calls (registryAddCmd cfg)).err = some e →
      (deployPack env cfg w state).2 = (state, Outcome.error e) ∧
      (deployPack env cfg w state).1.calls = w.calls ++ [registryAddCmd cfg]) ∧
    ((env.exec w.calls (registryAddCmd cfg)).err = none →
      (env.exec (w.calls ++ [registryAddCmd cfg])
        (runCmd cfg (env.vars.order cfg.Variables))).err = some e →
      (deployPack env cfg w state).2 = (state, Outcome.error e) ∧
      (deployPack env cfg w state).1.calls
        = w.calls ++ [registryAddCmd cfg, runCmd cfg (env.vars.order cfg.Variables)]) := by
  constructor
  · intro h
    exact ⟨(deployPack_reg_err env cfg w state e h).2, (deployPack_reg_err env cfg w state e h).1⟩
  · intro hreg hrun
    rw [deployPack_after_reg env cfg w state hreg, hrun]
    refine ⟨rfl, ?_⟩
    simp [World.call, World.uiOutput]

/-- C10 on the end-to-end configuration, once with the registration failing and once with
the run failing: the error comes back as it was and the state keeps its name. -/
theorem deployPack_failure_witness :
    ((envFailing "registry" ⟨"exit status 1"⟩).exec World.empty.calls
      (registryAddCmd redisCfg)).err = some ⟨"exit status 1"⟩ ∧
    (deployPack (envFailing "registry" ⟨"exit status 1"⟩) redisCfg World.empty ⟨"old"⟩).2
      = (⟨"old"⟩, Outcome.error ⟨"exit status 1"⟩) ∧
    (deployPack (envFailing "registry" ⟨"exit status 1"⟩) redisCfg World.empty ⟨"old"⟩).1.calls
      = World.empty.calls ++ [registryAddCmd redisCfg] ∧
    ((envFailing "run" ⟨"exit status 2"⟩).exec World.empty.calls
      (registryAddCmd redisCfg)).err = none ∧
    ((envFailing "run" ⟨"exit status 2"⟩).exec (World.empty.calls ++ [registryAddCmd redisCfg])
      (runCmd redisCfg ((envFailing "run" ⟨"exit status 2"⟩).vars.order redisCfg.Variables))).err
      = some ⟨"exit status 2"⟩ ∧
    (deployPack (envFailing "run" ⟨"exit status 2"⟩) redisCfg World.empty ⟨"old"⟩).2
      = (⟨"old"⟩, Outcome.error ⟨"exit status 2"⟩) ∧
    (deployPack (envFailing "run" ⟨"exit status 2"⟩) redisCfg World.empty ⟨"old"⟩).1.calls
      = World.empty.calls ++ [registryAddCmd redisCfg,
          runCmd redisCfg ((envFailing "run" ⟨"exit status 2"⟩).vars.order redisCfg.Variables)] := by
  have h1 := (deployPack_failure (envFailing "registry" ⟨"exit status 1"⟩) redisCfg World.empty
    ⟨"old"⟩ ⟨"exit status 1"⟩).1 (by decide)
  have h2 := (deployPack_failure (envFailing "run" ⟨"exit status 2"⟩) redisCfg World.empty
    ⟨"old"⟩ ⟨"exit status 2"⟩).2 (by decide) (by decide)
  exact ⟨by decide, h1.1, h1.2, by decide, by decide, h2.1, h2.2⟩

/-! ## Status report -/

theorem health_of_contains (s : String) :
    (if strContains s "running" = true then Health.READY
      else if strContains s "pending" = true then Health.DOWN else Health.UNKNOWN)
      = healthOfText s := by
  unfold healthOfText
  simp only [strContains_iff]

/-- C6, as stated, fails: the tool reports the status text "pending", whose derived health
is DOWN, and the report returned by `status` has overall health READY. -/
theorem status_health_not_derived :
    (strSplit "H1\nSEP\nredis|r1|d1|job|pending\n" '\n')[2]? = some "redis|r1|d1|job|pending" ∧
    (strSplit "redis|r1|d1|job|pending" '|')[4]? = some "pending" ∧
    healthOfText "pending" = Health.DOWN ∧
    (status (envPrinting "H1\nSEP\nredis|r1|d1|job|pending\n") redisCfg World.empty
        ⟨"d1", "d1", some "redis"⟩).2
      = Outcome.ok ⟨[⟨"redis", "redis", 0, DisplayHint.INSTANCE, Health.DOWN, "pack is pending",
          "redis|r1|d1|job|pending"⟩], Health.READY, ""⟩ := by
  refine ⟨by decide, by decide, ?_, by decide⟩
  rw [← health_of_contains]
  decide

/-- C6, amended: when the resource state is restored, the registration and the status probe
succeed and the third output line has a fifth field `s`, `status` returns the report the
resource manager assembles from the single pack resource, whose own health is the level
derived from `s` (READY for "running", else DOWN for "pending", else UNKNOWN), with the
overall health of the report set to READY whatever `s` is. -/
theorem status_report_health (env : Env) (cfg : DeployConfig) (w : World)
    (deployment : Deployment) (pack : Resource_Pack) (out line s : String)
    (hload : statusResourceState env deployment = Except.ok pack)
    (hreg : (env.exec w.calls (registryAddCmd cfg)).err = none)
    (hst : env.exec (w.calls ++ [registryAddCmd cfg]) (statusCmd cfg pack.Name) = ⟨out, none⟩)
    (hline : (strSplit out '\n')[2]? = some line)
    (hs : (strSplit line '|')[4]? = some s) :
    ∃ (report : StatusReport) (res : StatusResource),
      (status env cfg w deployment).2 = Outcome.ok report ∧
      report.Health = Health.READY ∧
      report = { env.sdkReport [res] with Health := Health.READY } ∧
      res.Name = pack.Name ∧
      res.Health = healthOfText s := by
  obtain ⟨f0, f1, f2, f3, rest, hf⟩ := getElem?_of_four _ _ hs
  have hp := packStatus_parsed env cfg
    (w.uiOutput "Checking the status of the deployment..." Style.step) pack [] out line
    f0 f1 f2 f3 s rest hreg hst hline hf
  unfold status
  simp only [hload, hp]
  exact ⟨_, _, rfl, rfl, rfl, rfl, health_of_contains s⟩

/-- C6, amended, at a pending pack: the overall health is READY and the health of the pack
resource is the one derived from "pending". -/
theorem status_report_health_witness :
    statusResourceState (envPrinting "H1\nSEP\nredis|r1|d1|job|pending\n")
      ⟨"d1", "d1", some "redis"⟩ = Except.ok ⟨"redis"⟩ ∧
    ((envPrinting "H1\nSEP\nredis|r1|d1|job|pending\n").exec World.empty.calls
      (registryAddCmd redisCfg)).err = none ∧
    (strSplit "H1\nSEP\nredis|r1|d1|job|pending\n" '\n')[2]? = some "redis|r1|d1|job|pending" ∧
    (strSplit "redis|r1|d1|job|pending" '|')[4]? = some "pending" ∧
    ∃ (report : StatusReport) (res : StatusResource),
      (status (envPrinting "H1\nSEP\nredis|r1|d1|job|pending\n") redisCfg World.empty
        ⟨"d1", "d1", some "redis"⟩).2 = Outcome.ok report ∧
      report.Health = Health.READY ∧
      report = { (envPrinting "H1\nSEP\nredis|r1|d1|job|pending\n").sdkReport [res] with
        Health := Health.READY } ∧
      res.Name = "redis" ∧
      res.Health = healthOfText "pending" :=
  ⟨rfl, by decide, by decide, by decide,
    status_report_health (envPrinting "H1\nSEP\nredis|r1|d1|job|pending\n") redisCfg World.empty
      ⟨"d1", "d1", some "redis"⟩ ⟨"redis"⟩ "H1\nSEP\nredis|r1|d1|job|pending\n"
      "redis|r1|d1|job|pending" "pending" rfl (by decide) (by decide) (by decide) (by decide)⟩

/-! ## Restoring the resource state of an older deployment -/

theorem statusResourceState_nil (env : Env) (d : Deployment) (h : d.ResourceState = none) :
    statusResourceState env d = Except.ok ⟨d.Id⟩ := by
  unfold statusResourceState
  rw [h]

theorem destroyResourceState_nil (env : Env) (d : Deployment) (h : d.ResourceState = none) :
    destroyResourceState env d = Except.ok ⟨d.Name⟩ := by
  unfold destroyResourceState
  rw [h]

/-- Destroy without persisted state behaves as Destroy given a persisted state that decodes
to the name recorded in the deployment. -/
theorem destroy_nil_state (env : Env) (cfg : DeployConfig) (w : World) (d : Deployment)
    (bytes : String) (h : d.ResourceState = none)
    (hdec : env.loadState bytes = Except.ok ⟨d.Name⟩) :
    destroy env cfg w d = destroy env cfg w { d with ResourceState := some bytes } := by
  unfold destroy
  rw [destroyResourceState_nil env d h]
  simp only [destroyResourceState, hdec]

/-- C7 at a deployment with identifier "dep-7", recorded name "redis" and no persisted state:
Destroy rebuilds the state with the name "redis", Status rebuilds it with "dep-7", asks the
tool for the status of "dep-7" and reports a resource of that name, whereas Status given a
persisted state holding "redis" asks for the status of "redis". -/
theorem status_nil_state_uses_id :
    destroyResourceState (envPrinting "H1\nSEP\nredis|r1|d1|job|running\n")
      ⟨"dep-7", "redis", none⟩ = Except.ok ⟨"redis"⟩ ∧
    statusResourceState (envPrinting "H1\nSEP\nredis|r1|d1|job|running\n")
      ⟨"dep-7", "redis", none⟩ = Except.ok ⟨"dep-7"⟩ ∧
    (status (envPrinting "H1\nSEP\nredis|r1|d1|job|running\n") redisCfg World.empty
      ⟨"dep-7", "redis", none⟩).1.calls
      = [["registry", "add", "r1", "github.com/x/y"],
         ["status", "dep-7", "--registry=r1", "--name=d1"]] ∧
    (status (envPrinting "H1\nSEP\nredis|r1|d1|job|running\n") redisCfg World.empty
      ⟨"dep-7", "redis", some "redis"⟩).1.calls
      = [["registry", "add", "r1", "github.com/x/y"],
         ["status", "redis", "--registry=r1", "--name=d1"]] ∧
    (status (envPrinting "H1\nSEP\nredis|r1|d1|job|running\n") redisCfg World.empty
      ⟨"dep-7", "redis", none⟩).2
      ≠ (status (envPrinting "H1\nSEP\nredis|r1|d1|job|running\n") redisCfg World.empty
      ⟨"dep-7", "redis", some "redis"⟩).2 := by
  refine ⟨rfl, rfl, by decide, by decide, by decide⟩

/-! ## Output of an unexpected shape -/

/-- C8 at the output "H1\nSEP\nA|B|C": the third line has three fields; `generation`
returns no version bytes and no error, `destroyPack` returns success without a destroy
invocation, and `packStatus` ends in an index-out-of-range fault. -/
theorem packStatus_three_fields_fault :
    (strSplit "H1\nSEP\nA|B|C" '\n')[2]? = some "A|B|C" ∧
    (strSplit "A|B|C" '|').length = 3 ∧
    (generation (envPrinting "H1\nSEP\nA|B|C") redisCfg World.empty).2 = Outcome.ok none ∧
    (destroyPack (envPrinting "H1\nSEP\nA|B|C") redisCfg World.empty ⟨"redis"⟩).2
      = Outcome.ok () ∧
    (destroyPack (envPrinting "H1\nSEP\nA|B|C") redisCfg World.empty ⟨"redis"⟩).1.calls
      = [["registry", "add", "r1", "github.com/x/y"],
         ["status", "redis", "--registry=r1", "--name=d1"]] ∧
    (packStatus (envPrinting "H1\nSEP\nA|B|C") redisCfg World.empty ⟨"redis"⟩ []).2
      = ([], Outcome.fault) ∧
    (status (envPrinting "H1\nSEP\nA|B|C") redisCfg World.empty ⟨"d1", "d1", some "redis"⟩).2
      = Outcome.fault := by
  refine ⟨by decide, by decide, by decide, by decide, by decide, by decide, by decide⟩

/-- Whenever the probe succeeds and the third output line has four or fewer fields,
`packStatus` ends in a fault. -/
theorem packStatus_short_row_fault (env : Env) (cfg : DeployConfig) (w : World)
    (pack : Resource_Pack) (sr : List StatusResource) (out line : String)
    (hreg : (env.exec w.calls (registryAddCmd cfg)).err = none)
    (hst : env.exec (w.calls ++ [registryAddCmd cfg]) (statusCmd cfg pack.Name) = ⟨out, none⟩)
    (hline : (strSplit out '\n')[2]? = some line)
    (h3 : (strSplit line '|').length ≤ 4) :
    (packStatus env cfg w pack sr).2 = (sr, Outcome.fault) := by
  have hc : (w.call (registryAddCmd cfg)).calls = w.calls ++ [registryAddCmd cfg] := rfl
  have hargs : ["status", pack.Name, "--registry=" ++ cfg.RegistryName,
      "--name=" ++ cfg.DeploymentName]
      ++ (if cfg.RegistryRef = "" then [] else ["--ref=" ++ cfg.RegistryRef])
      = statusCmd cfg pack.Name := rfl
  have h4 : (strSplit line '|')[4]? = none := List.getElem?_eq_none (by omega)
  unfold packStatus
  rw [addRegistry_ok env cfg w hreg]
  simp only [refArg_ite]
  rw [hargs, hc, hst]
  simp only [hline]
  split
  · rename_i heq4
    rw [h4] at heq4
    exact absurd heq4 (by simp)
  · rfl

/-- C9 at a successful probe that prints nothing, or only two lines: there is no third
line, and `destroyPack` ends in an index-out-of-range fault after the probe instead of
returning success. -/
theorem destroyPack_short_output_fault :
    (strSplit "" '\n').length = 1 ∧
    destroyPack (envPrinting "") redisCfg World.empty ⟨"redis"⟩
      = (⟨[["registry", "add", "r1", "github.com/x/y"],
            ["status", "redis", "--registry=r1", "--name=d1"]], [], [""]⟩, Outcome.fault) ∧
    (strSplit "H1\nSEP" '\n').length = 2 ∧
    (destroyPack (envPrinting "H1\nSEP") redisCfg World.empty ⟨"redis"⟩).2 = Outcome.fault := by
  refine ⟨by decide, by decide, by decide, by decide⟩

end Platform
